import Mathlib

/-!
The node-scrypt sources: the `params` binding and the salt source

A shallow embedding of `src/node-boilerplate/scrypt_params.cc` (argument
validation, synchronous / asynchronous dispatch, result construction) and of
`src/util/salt.c` (`getsalt` with its `/dev/urandom` fallback), followed by the
properties established about them.

Conventions of the embedding:

* a C++ `double` is a `Double`: NaN, an infinity, or a finite dyadic value
  `m * 2 ^ e` (every finite IEEE-754 value has this form; `-0` and `+0` are
  both `fin 0 e`, which no comparison or conversion in the code tells apart);
* `size_t` is a natural number below `2 ^ 64`; `int` and `int32_t` are integers,
  `uint32_t` a natural number below `2 ^ 32`;
* effects (exceptions thrown, calls of `pickparams`, work queued, callback
  invocations, system calls) are recorded in an explicit log, in program order.
-/

set_option autoImplicit false

namespace NodeScrypt

/-! ## Numbers -/

/-- A C++ `double` / JavaScript number. -/
inductive Double where
  | nan : Double
  | inf (negative : Bool) : Double
  | fin (m : Int) (e : Int) : Double
  deriving DecidableEq, Repr

namespace Double

/-- The comparison `d <= 0` on doubles (false on NaN). -/
def leZero : Double → Bool
  | nan => false
  | inf negative => negative
  | fin m _ => decide (m ≤ 0)

/-- The comparison `d > 0` on doubles (false on NaN). -/
def gtZero : Double → Bool
  | nan => false
  | inf negative => !negative
  | fin m _ => decide (0 < m)

/-- Truncation toward zero of a finite non-negative dyadic value. -/
def truncNat (m e : Int) : Nat :=
  if 0 ≤ e then m.toNat * 2 ^ e.toNat else m.toNat / 2 ^ (-e).toNat

end Double

/-- Number of values of a `size_t` (LP64). -/
def SIZE_RANGE : Nat := 2 ^ 64

/-- The implicit conversion `double -> size_t`: truncation toward zero when the
truncated value is representable.  Otherwise the conversion is undefined in
C++; `undef` gives the value the platform produces there. -/
def doubleToSizeT (undef : Double → Nat) : Double → Nat
  | Double.fin m e =>
      if 0 ≤ m ∧ Double.truncNat m e < SIZE_RANGE then Double.truncNat m e
      else if m < 0 ∧ e < 0 ∧ (-m).toNat < 2 ^ (-e).toNat then 0
      else undef (Double.fin m e)
  | d => undef d

/-- The implicit conversion `uint32_t -> int32_t` (two's complement). -/
def toInt32 (u : Nat) : Int :=
  if u % 2 ^ 32 < 2 ^ 31 then ((u % 2 ^ 32 : Nat) : Int) else ((u % 2 ^ 32 : Nat) : Int) - 2 ^ 32

/-! ## JavaScript values -/

/-- A JavaScript value received as an argument. -/
inductive JSValue where
  | undefined : JSValue
  | null : JSValue
  | boolean (b : Bool) : JSValue
  | number (d : Double) : JSValue
  | string (s : String) : JSValue
  | function (id : Nat) : JSValue
  | object : JSValue
  deriving DecidableEq, Repr

namespace JSValue

/-- The test `v->IsFunction()`. -/
def IsFunction : JSValue → Bool
  | function _ => true
  | _ => false

/-- The test `v->IsNumber()`. -/
def IsNumber : JSValue → Bool
  | number _ => true
  | _ => false

/-- The test `v->IsUndefined()`. -/
def IsUndefined : JSValue → Bool
  | undefined => true
  | _ => false

/-- The value `v->ToNumber()->Value()` (the code applies it to numbers only). -/
def NumberValue : JSValue → Double
  | number d => d
  | undefined => Double.nan
  | null => Double.fin 0 0
  | boolean b => Double.fin (if b then 1 else 0) 0
  | _ => Double.nan

/-- The handle `Persistent<Function>::New(Local<Function>::Cast(v))`, empty
(`none`) unless `v` is a function. -/
def asFunction : JSValue → Option Nat
  | function id => some id
  | _ => none

end JSValue

/-- A value the binding hands back to JavaScript. -/
inductive HostValue where
  | undefined : HostValue
  | null : HostValue
  | object (fields : List (String × Int)) : HostValue
  | typeError (message : String) : HostValue
  | errorObject (errType : Int) (message : String) (code : Int) : HostValue
  deriving DecidableEq, Repr

/-- Modelled from the spec: `Internal::MakeErrorObject` (declared in
`scrypt_common.h`, not among the sources) converts an error kind into a
host-visible error carrying a numeric code and an optional message; the error
object records the three arguments of the call. -/
def MakeErrorObject (errType : Int) (message : String) (code : Int) : HostValue :=
  HostValue.errorObject errType message code

/-! ## `TranslationInfo` -/

/-- Default of `maxmem`. -/
def MAXMEM : Nat := 0

/-- Default of `maxmemfrac`, `0.5`. -/
def MAXMEMFRAC : Double := Double.fin 1 (-1)

/-- The struct `TranslationInfo`; `callback` is `none` for an empty handle. -/
structure TranslationInfo where
  callback : Option Nat
  result : Int
  maxmem : Nat
  maxmemfrac : Double
  maxtime : Double
  N : Int
  r : Nat
  p : Nat
  deriving DecidableEq, Repr

/-- The constructor `TranslationInfo()`: it sets `maxmem`, `maxmemfrac` and
clears `callback`; the other members keep the indeterminate content `raw` of
the allocated storage. -/
def TranslationInfo.new (raw : TranslationInfo) : TranslationInfo :=
  { raw with callback := none, maxmem := MAXMEM, maxmemfrac := MAXMEMFRAC }

/-- What one call of `pickparams` writes: its return value and the three
out-parameters. -/
structure PickOut where
  result : Int
  N : Int
  r : Nat
  p : Nat
  deriving DecidableEq, Repr

/-- An observable effect of the binding. -/
inductive Effect where
  | pickparams (maxtime : Double) (maxmem : Nat) (maxmemfrac : Double) : Effect
  | throwException (e : HostValue) : Effect
  | queueWork (ti : TranslationInfo) : Effect
  | callCallback (fn : Option Nat) (argv : List HostValue) : Effect
  | fatalException : Effect
  deriving DecidableEq, Repr

/-- Everything outside the file that the binding depends on. -/
structure Env where
  /-- The call `pickparams(&N, &r, &p, maxtime, maxmem, maxmemfrac)`, given the current
  content of `N`, `r`, `p`. -/
  pickparams : Int → Nat → Nat → Double → Nat → Double → PickOut
  /-- Indeterminate content of a freshly allocated `TranslationInfo`. -/
  raw : TranslationInfo
  /-- Result of a `double -> size_t` conversion outside the range of `size_t`. -/
  undefSizeT : Double → Nat
  /-- Whether the JavaScript callback throws when called with these arguments. -/
  callbackThrows : Option Nat → List HostValue → Bool

/-! ## `ValidateArguments` -/

/-- The `for` loop of `ValidateArguments`, from index `i` on with `rest` the
arguments `args[i], args[i+1], ...`.  Returns the return value, `errMessage`
and `translationInfo`. -/
def validateLoop (env : Env) :
    Nat → List JSValue → String → TranslationInfo → Int × String × TranslationInfo
  | _, [], errMessage, ti => (0, errMessage, ti)
  | i, currentVal :: rest, errMessage, ti =>
    if 0 < i ∧ currentVal.IsFunction = true then
      (0, errMessage, { ti with callback := currentVal.asFunction })
    else
      match i with
      | 0 =>
        if currentVal.IsNumber = false then
          (1, "maxtime argument must be a number", ti)
        else
          let ti1 := { ti with maxtime := currentVal.NumberValue }
          if ti1.maxtime.leZero = true then
            (1, "maxtime must be greater than 0", ti1)
          else validateLoop env 1 rest errMessage ti1
      | 1 =>
        if currentVal.IsUndefined = false then
          if currentVal.IsNumber = false then
            (1, "maxmem argument must be a number", ti)
          else if currentVal.NumberValue.gtZero = true then
            validateLoop env 2 rest errMessage
              { ti with maxmem := doubleToSizeT env.undefSizeT currentVal.NumberValue }
          else validateLoop env 2 rest errMessage ti
        else validateLoop env 2 rest errMessage ti
      | 2 =>
        if currentVal.IsUndefined = false then
          if currentVal.IsNumber = false then
            (1, "max_memfrac argument must be a number", ti)
          else if currentVal.NumberValue.gtZero = true then
            validateLoop env 3 rest errMessage
              { ti with maxmemfrac := currentVal.NumberValue }
          else validateLoop env 3 rest errMessage ti
        else validateLoop env 3 rest errMessage ti
      | j + 3 => validateLoop env (j + 4) rest errMessage ti

/-- The function `ValidateArguments(args, errMessage, translationInfo)`. -/
def ValidateArguments (env : Env) (args : List JSValue) (errMessage : String)
    (ti : TranslationInfo) : Int × String × TranslationInfo :=
  if args.length = 0 then
    (1, "Wrong number of arguments: At least one argument is needed - the maxtime", ti)
  else if 0 < args.length ∧ (args.head?.map JSValue.IsFunction) = some true then
    (1,
     "Wrong number of arguments: At least one argument is needed before the callback - the maxtime",
     ti)
  else validateLoop env 0 args errMessage ti

/-! ## Work and after-work functions -/

/-- The constructor `Integer::New(int32_t)` of the V8 API the file is written
against: the JavaScript integer with that value. -/
def IntegerNew (v : Int) : Int := v

/-- The function `createJSONObject(obj, N, r, p)`: `N` is an `int`; `r` and `p` are
`uint32_t` and are converted to the `int32_t` parameter of `Integer::New`. -/
def createJSONObject (N : Int) (r p : Nat) : HostValue :=
  HostValue.object
    [("N", IntegerNew N), ("r", IntegerNew (toInt32 r)), ("p", IntegerNew (toInt32 p))]

/-- The function `ParamsWork(translationInfo)`. -/
def ParamsWork (env : Env) (ti : TranslationInfo) : TranslationInfo × List Effect :=
  let out := env.pickparams ti.N ti.r ti.p ti.maxtime ti.maxmem ti.maxmemfrac
  ({ ti with result := out.result, N := out.N, r := out.r, p := out.p },
   [Effect.pickparams ti.maxtime ti.maxmem ti.maxmemfrac])

/-- The function `ParamsAsyncWork(req)`. -/
def ParamsAsyncWork (env : Env) (ti : TranslationInfo) : TranslationInfo × List Effect :=
  ParamsWork env ti

/-- The function `ParamsSyncAfterWork(scope, translationInfo)`: the value returned and the
effects. -/
def ParamsSyncAfterWork (ti : TranslationInfo) : HostValue × List Effect :=
  let result := ti.result
  if result ≠ 0 then
    (HostValue.undefined, [Effect.throwException (MakeErrorObject 2 "" result)])
  else
    (createJSONObject ti.N ti.r ti.p, [])

/-- The `TryCatch` around the callback call: `node::FatalException` when the
callback threw. -/
def callWithTryCatch (env : Env) (fn : Option Nat) (argv : List HostValue) : List Effect :=
  Effect.callCallback fn argv ::
    (if env.callbackThrows fn argv = true then [Effect.fatalException] else [])

/-- The function `ParamsAsyncAfterWork(req)`. -/
def ParamsAsyncAfterWork (env : Env) (ti : TranslationInfo) : List Effect :=
  if ti.result ≠ 0 then
    callWithTryCatch env ti.callback [MakeErrorObject 2 "" ti.result]
  else
    callWithTryCatch env ti.callback [HostValue.null, createJSONObject ti.N ti.r ti.p]

/-! ## `Params` -/

/-- The function `Params(args)`: the value returned to JavaScript and the effects
of the call itself, in order.  The call `uv_queue_work` is taken to succeed, as
the code asserts; storage management (`delete`, handle scopes) has no
observable effect and is left out. -/
def Params (env : Env) (args : List JSValue) : HostValue × List Effect :=
  let v := ValidateArguments env args "" (TranslationInfo.new env.raw)
  if v.1 ≠ 0 then
    (HostValue.undefined, [Effect.throwException (HostValue.typeError v.2.1)])
  else if v.2.2.callback.isNone = true then
    let w := ParamsWork env v.2.2
    let a := ParamsSyncAfterWork w.1
    (a.1, w.2 ++ a.2)
  else
    (HostValue.undefined, [Effect.queueWork v.2.2])

/-- What the event loop does with one logged effect: a queued work request runs
`ParamsAsyncWork` on a pool thread and then `ParamsAsyncAfterWork`. -/
def runQueued (env : Env) : Effect → List Effect
  | Effect.queueWork ti =>
      let w := ParamsAsyncWork env ti
      w.2 ++ ParamsAsyncAfterWork env w.1
  | _ => []

/-- The effects that follow a call of `Params` once the event loop has run the
work it queued. -/
def deferredEffects (env : Env) (args : List JSValue) : List Effect :=
  ((Params env args).2.map (runQueued env)).flatten

/-! ## `salt.c` -/

/-- The `errno` value `EINTR`. -/
def EINTR : Int := 4

/-- What one `read(fd, buf, count)` does: it fails (returns `-1`), or transfers
the given bytes and returns their number (`0` bytes at end of file). -/
inductive ReadOutcome where
  | error : ReadOutcome
  | data (bytes : List Nat) : ReadOutcome
  deriving DecidableEq, Repr

/-- The value `read` returns. -/
def ReadOutcome.lenread : ReadOutcome → Int
  | ReadOutcome.error => -1
  | ReadOutcome.data bytes => (bytes.length : Int)

/-- The bytes `read` transferred. -/
def ReadOutcome.bytes : ReadOutcome → List Nat
  | ReadOutcome.error => []
  | ReadOutcome.data bytes => bytes

/-- What one `close(fd)` does: its return value and the `errno` it leaves. -/
structure CloseOutcome where
  ret : Int
  errno : Int
  deriving DecidableEq, Repr

/-- What `RAND_bytes(salt, saltlen)` does: its return value and the bytes it
stored at the start of the buffer. -/
structure RandOutcome where
  ret : Int
  bytes : List Nat
  deriving DecidableEq, Repr

/-- The behaviour of the random device during one call: what `open` returns and
what the successive `read` and `close` calls do. -/
structure Device where
  fd : Int
  reads : List ReadOutcome
  closes : List CloseOutcome
  deriving DecidableEq, Repr

/-- A system call made by `randomsample`; `closeUnchecked` is the `close` after
`err1`, whose result is not looked at. -/
inductive SysCall where
  | openDevice (fd : Int) : SysCall
  | read (offset count : Nat) (out : ReadOutcome) : SysCall
  | close (out : CloseOutcome) : SysCall
  | closeUnchecked : SysCall
  deriving DecidableEq, Repr

/-- Return value, buffer content and system calls of `randomsample` / `getsalt`. -/
structure SaltResult where
  rc : Int
  mem : List Nat
  calls : List SysCall
  deriving DecidableEq, Repr

/-- Storing `bytes` into the buffer `mem` from position `off` on. -/
def writeAt (mem : List Nat) (off : Nat) (bytes : List Nat) : List Nat :=
  mem.take off ++ bytes ++ mem.drop (off + bytes.length)

/-- The statement `buflen -= lenread` on a `size_t`. -/
def sizeSub (buflen lenread : Nat) : Nat :=
  (buflen + SIZE_RANGE - lenread % SIZE_RANGE) % SIZE_RANGE

/-- The loop `while (buflen > 0)` of `randomsample`, with `off` the distance of
`buf` from the start of the buffer.  The flag is `false` on `goto err1`; the
result is `none` when the loop asks for a read the device has no outcome for. -/
def fillLoop :
    List ReadOutcome → List Nat → Nat → Nat → Option (Bool × List Nat × List SysCall)
  | [], mem, _, buflen => if buflen = 0 then some (true, mem, []) else none
  | out :: rest, mem, off, buflen =>
    if buflen = 0 then some (true, mem, [])
    else if out.lenread = -1 then some (false, mem, [SysCall.read off buflen out])
    else if out.lenread = 0 then some (false, mem, [SysCall.read off buflen out])
    else
      (fillLoop rest (writeAt mem off out.bytes) (off + out.bytes.length)
          (sizeSub buflen out.bytes.length)).map
        (fun r => (r.1, r.2.1, SysCall.read off buflen out :: r.2.2))

/-- The loop `while (close(fd) == -1)` of `randomsample`.  The flag is `false`
on `goto err0`; `none` when the device has no further outcome for `close`. -/
def closeLoop : List CloseOutcome → Option (Bool × List SysCall)
  | [] => none
  | c :: rest =>
    if c.ret = -1 then
      if c.errno ≠ EINTR then some (false, [SysCall.close c])
      else (closeLoop rest).map (fun r => (r.1, SysCall.close c :: r.2))
    else some (true, [SysCall.close c])

/-- The function `randomsample(buf, buflen)`. -/
def randomsample (dev : Device) (mem : List Nat) (buflen : Nat) : Option SaltResult :=
  if dev.fd = -1 then some ⟨4, mem, [SysCall.openDevice dev.fd]⟩
  else
    match fillLoop dev.reads mem 0 buflen with
    | none => none
    | some (false, mem1, reads) =>
        some ⟨4, mem1, SysCall.openDevice dev.fd :: reads ++ [SysCall.closeUnchecked]⟩
    | some (true, mem1, reads) =>
        match closeLoop dev.closes with
        | none => none
        | some (false, closes) => some ⟨4, mem1, SysCall.openDevice dev.fd :: reads ++ closes⟩
        | some (true, closes) => some ⟨0, mem1, SysCall.openDevice dev.fd :: reads ++ closes⟩

/-- The function `getsalt(salt, saltlen)`. -/
def getsalt (rand : RandOutcome) (dev : Device) (salt : List Nat) (saltlen : Nat) :
    Option SaltResult :=
  if rand.ret ≠ 1 then randomsample dev (writeAt salt 0 rand.bytes) saltlen
  else some ⟨0, writeAt salt 0 rand.bytes, []⟩

/-! ## The parameter search

`pickparams` itself is not among the sources; the definitions of this section
follow sections 3, 4.2 and 7 of the specification. -/

/-- Modelled from the spec: the error kinds of section 7 (`pickparams.c` is not
among the sources). -/
inductive ErrorKind where
  | InvalidArgument : ErrorKind
  | InvalidConfiguration : ErrorKind
  | ResourceExhausted : ErrorKind
  deriving DecidableEq, Repr

/-- Modelled from the spec: the output `CostParameters` of section 3
(`pickparams.c` is not among the sources). -/
structure CostParameters where
  N : Nat
  r : Nat
  p : Nat
  deriving DecidableEq, Repr

/-- Modelled from the spec: what the search obtains from the machine, the Cost
Benchmarker and the memory detection not being among the sources.
`memlimit maxmem maxmemfrac` is the effective memory ceiling of section 3;
`opsBudget maxtime` is `maxtime * opsPerSecond` of section 4.2 step 2, `none`
when the calibration run fails; `rFactor memlimit opslimit` is the block-size
factor of step 4, between 1 and 8; `opsFactor` is the number of operations per
unit of `N * r * p`. -/
structure Machine where
  memlimit : Nat → Double → Nat
  opsBudget : Double → Option Nat
  rFactor : Nat → Nat → Nat
  opsFactor : Nat
  rFactor_pos : ∀ a b, 1 ≤ rFactor a b
  rFactor_le : ∀ a b, rFactor a b ≤ 8

/-- Modelled from the spec: the two bounds of section 4.2 step 5 (`pickparams.c`
is not among the sources): `128 * r * N ≤ memlimit` and the estimated operation
count for `(N, r)` within `opslimit`. -/
def fitsBounds (memlimit opslimit opsFactor r N : Nat) : Bool :=
  decide (128 * r * N ≤ memlimit) && decide (opsFactor * N * r ≤ opslimit)

/-- Modelled from the spec: section 4.2 step 5 (`pickparams.c` is not among the
sources): from `N`, double while both bounds hold for the doubled value; the
last value satisfying both is selected.  `fuel` bounds the number of
doublings. -/
def searchN (memlimit opslimit opsFactor r : Nat) : Nat → Nat → Nat
  | 0, N => N
  | fuel + 1, N =>
    if fitsBounds memlimit opslimit opsFactor r (2 * N) = true then
      searchN memlimit opslimit opsFactor r fuel (2 * N)
    else N

/-- Modelled from the spec: `PickParameters` of sections 4.2 and 6
(`pickparams.c` is not among the sources). -/
def PickParameters (m : Machine) (maxtime : Double) (maxmem : Nat) (maxmemfrac : Double) :
    Except ErrorKind CostParameters :=
  if maxtime.gtZero = false then Except.error ErrorKind.InvalidArgument
  else
    let memlimit := m.memlimit maxmem maxmemfrac
    match m.opsBudget maxtime with
    | none => Except.error ErrorKind.ResourceExhausted
    | some ops =>
      let opslimit := max ops (2 ^ 15)
      let r := m.rFactor memlimit opslimit
      if fitsBounds memlimit opslimit m.opsFactor r 2 = false then
        Except.error ErrorKind.InvalidConfiguration
      else
        let N := searchN memlimit opslimit m.opsFactor r memlimit 2
        let p := max 1 (opslimit / (m.opsFactor * N * r))
        Except.ok ⟨N, r, p⟩

/-- Modelled from the spec: the C entry point `pickparams(&N, &r, &p, maxtime,
maxmem, maxmemfrac)` (`pickparams.c` is not among the sources): it returns `0`
and stores the triple on success, and returns the numeric code of the error kind
otherwise, leaving the out-parameters as they were. -/
def specPickparams (m : Machine) (code : ErrorKind → Int) :
    Int → Nat → Nat → Double → Nat → Double → PickOut :=
  fun N r p maxtime maxmem maxmemfrac =>
    match PickParameters m maxtime maxmem maxmemfrac with
    | Except.ok cp => ⟨0, (cp.N : Int), cp.r, cp.p⟩
    | Except.error k => ⟨code k, N, r, p⟩

/-! ## Vocabulary of the properties -/

/-- The first function among the given values, as a callback handle. -/
def firstFunction : List JSValue → Option Nat
  | [] => none
  | JSValue.function id :: _ => some id
  | _ :: rest => firstFunction rest

/-- The arguments that come before the callback: the first argument and those
after it up to the first function. -/
def beforeCallback : List JSValue → List JSValue
  | [] => []
  | a :: rest => a :: rest.takeWhile (fun v => !v.IsFunction)

/-- The specification's account of `maxtime`: the first argument. -/
def claimedMaxtime (args : List JSValue) : Double :=
  match args.head? with
  | some v => v.NumberValue
  | none => Double.nan

/-- The specification's account of `maxmem`: the caller's value converted to
`size_t` when the second argument is a number greater than `0`, the default
when it is omitted, undefined or not greater than `0`. -/
def claimedMaxmem (env : Env) (args : List JSValue) : Nat :=
  match args.tail.head? with
  | some (JSValue.number d) => if d.gtZero = true then doubleToSizeT env.undefSizeT d else MAXMEM
  | _ => MAXMEM

/-- The specification's account of `maxmemfrac`: the caller's value when the
third argument is a number greater than `0`, the default when it is omitted,
undefined or not greater than `0`. -/
def claimedMaxmemfrac (args : List JSValue) : Double :=
  match args.tail.tail.head? with
  | some (JSValue.number d) => if d.gtZero = true then d else MAXMEMFRAC
  | _ => MAXMEMFRAC

/-- The value of `maxmemfrac` the code forwards: the default when the second
argument is a function, else what the third argument gives. -/
def forwardedMaxmemfrac (args : List JSValue) : Double :=
  if (args.tail.head?.map JSValue.IsFunction) = some true then MAXMEMFRAC
  else claimedMaxmemfrac args

/-- Whether an effect is a call of `pickparams`. -/
def Effect.isPickparams : Effect → Bool
  | Effect.pickparams _ _ _ => true
  | _ => false

/-- Whether an effect starts the parameter search, at once or deferred. -/
def Effect.startsSearch : Effect → Bool
  | Effect.pickparams _ _ _ => true
  | Effect.queueWork _ => true
  | _ => false

/-- The calls of `pickparams` a call of `Params` leads to, inline or through the
work it queued. -/
def searchCalls (env : Env) (args : List JSValue) : List Effect :=
  ((Params env args).2 ++ deferredEffects env args).filter Effect.isPickparams

/-- Whether a function follows the first argument. -/
def callbackSupplied (args : List JSValue) : Bool :=
  args.tail.any JSValue.IsFunction

/-- The dispatch condition as the specification words it: the last argument is
a function and at least one argument precedes it. -/
def trailingCallback (args : List JSValue) : Bool :=
  decide (2 ≤ args.length) && (args.getLast?.map JSValue.IsFunction == some true)

/-- The bytes transferred by the `read` calls of a log, in order. -/
def readData : List SysCall → List Nat
  | [] => []
  | SysCall.read _ _ out :: rest => out.bytes ++ readData rest
  | _ :: rest => readData rest

/-- Whether a system call is a `read` that returned an error or end of file. -/
def SysCall.readFailed : SysCall → Bool
  | SysCall.read _ _ out => decide (out.lenread = -1) || decide (out.lenread = 0)
  | _ => false

/-- Whether a system call is a `close` that failed with an `errno` other than
`EINTR`. -/
def SysCall.closeFailed : SysCall → Bool
  | SysCall.close c => decide (c.ret = -1) && decide (c.errno ≠ EINTR)
  | _ => false

/-- Whether a system call is a `read` that returned more than `count`. -/
def SysCall.overlong : SysCall → Bool
  | SysCall.read _ count out => decide ((count : Int) < out.lenread)
  | _ => false

/-- Whether a system call is a `read`. -/
def SysCall.isRead : SysCall → Bool
  | SysCall.read _ _ _ => true
  | _ => false

/-- The `read` calls of a log continue one another: starting with `off` bytes
stored and `buflen` missing, each call stores at the end of what is stored,
asks for all that is missing and transfers between one byte and that many;
after the last one nothing is missing. -/
def Chained : Nat → Nat → List SysCall → Prop
  | _, buflen, [] => buflen = 0
  | off, buflen, SysCall.read o c out :: rest =>
      o = off ∧ c = buflen ∧ 0 < out.bytes.length ∧ out.bytes.length ≤ buflen
        ∧ Chained (off + out.bytes.length) (buflen - out.bytes.length) rest
  | _, _, _ :: _ => False

/-- The scripted reads never transfer more than is missing: the first at most
`buflen` bytes, the next at most what the first left missing, and so on. -/
def Conforms : List ReadOutcome → Nat → Prop
  | [], _ => True
  | out :: rest, buflen =>
      out.bytes.length ≤ buflen ∧ Conforms rest (buflen - out.bytes.length)

/-- Whether a `close` outcome ends the close loop: success, or a failure other
than `EINTR`. -/
def CloseOutcome.final (c : CloseOutcome) : Bool :=
  !(decide (c.ret = -1) && decide (c.errno = EINTR))

/-! ## Concrete environments -/

/-- A concrete environment: the search always answers `(0, 1024, 8, 1)`. -/
def exampleEnv : Env :=
  { pickparams := fun _ _ _ _ _ _ => ⟨0, 1024, 8, 1⟩
    raw := ⟨none, 0, 0, Double.nan, Double.nan, 0, 0, 0⟩
    undefSizeT := fun _ => 0
    callbackThrows := fun _ _ => false }

/-- A concrete environment whose search fails with code `7`. -/
def failingEnv : Env :=
  { pickparams := fun N r p _ _ _ => ⟨7, N, r, p⟩
    raw := ⟨none, 0, 0, Double.nan, Double.nan, 0, 0, 0⟩
    undefSizeT := fun _ => 0
    callbackThrows := fun _ _ => false }

/-- A machine with a memory ceiling of 1 MiB and a budget of `2 ^ 20`
operations, `r = 8` and 4 operations per unit of `N * r * p`. -/
def exampleMachine : Machine :=
  { memlimit := fun _ _ => 1048576
    opsBudget := fun _ => some 1048576
    rFactor := fun _ _ => 8
    opsFactor := 4
    rFactor_pos := fun _ _ => by simp
    rFactor_le := fun _ _ => by simp }

/-- A numeric code for each error kind, none of them `0`. -/
def exampleCode : ErrorKind → Int
  | ErrorKind.InvalidArgument => 1
  | ErrorKind.InvalidConfiguration => 2
  | ErrorKind.ResourceExhausted => 3

/-- The concrete environment whose search is the specified one, run on
`exampleMachine`. -/
def specEnv : Env :=
  { pickparams := specPickparams exampleMachine exampleCode
    raw := ⟨none, 0, 0, Double.nan, Double.nan, 0, 0, 0⟩
    undefSizeT := fun _ => 0
    callbackThrows := fun _ _ => false }

/-! ## Properties -/

/-! ### Argument validation -/

/-- From index 3 on the loop only looks for the callback: it succeeds, and sets
`callback` to the first function among the remaining arguments. -/
theorem validateLoop_ge3 (env : Env) (rest : List JSValue) :
    ∀ (j : Nat) (msg : String) (ti : TranslationInfo),
      validateLoop env (j + 3) rest msg ti
        = (0, msg, match firstFunction rest with
                   | none => ti
                   | some f => { ti with callback := some f }) := by
  induction rest with
  | nil => intro j msg ti; simp [validateLoop, firstFunction]
  | cons v rest ih =>
    intro j msg ti
    cases v <;>
      simp [validateLoop, firstFunction, JSValue.IsFunction, JSValue.asFunction, ih (j + 1)]

/-- The lemma `validateLoop_ge3` at index 3. -/
theorem validateLoop_three (env : Env) (rest : List JSValue) (msg : String)
    (ti : TranslationInfo) :
    validateLoop env 3 rest msg ti
      = (0, msg, match firstFunction rest with
                 | none => ti
                 | some f => { ti with callback := some f }) :=
  validateLoop_ge3 env rest 0 msg ti

/-- When validation succeeds, `translationInfo` is determined by the arguments
that come before the callback. -/
theorem validate_ok (env : Env) (args : List JSValue)
    (h : (ValidateArguments env args "" (TranslationInfo.new env.raw)).1 = 0) :
    (ValidateArguments env args "" (TranslationInfo.new env.raw)).2.2
      = { env.raw with
          callback := firstFunction args.tail
          maxtime := claimedMaxtime (beforeCallback args)
          maxmem := claimedMaxmem env (beforeCallback args)
          maxmemfrac := claimedMaxmemfrac (beforeCallback args) } := by
  rcases args with _ | ⟨a, args1⟩
  · simp [ValidateArguments] at h
  cases a <;>
    simp [ValidateArguments, validateLoop, JSValue.IsFunction, JSValue.IsNumber,
      JSValue.NumberValue] at h ⊢
  rename_i d
  by_cases hd : d.leZero = true
  · simp [hd] at h
  simp only [hd] at h ⊢
  simp only [Bool.false_eq_true, if_false] at h ⊢
  rcases args1 with _ | ⟨b, args2⟩
  · simp [validateLoop, firstFunction, beforeCallback,
      claimedMaxtime, claimedMaxmem, claimedMaxmemfrac, TranslationInfo.new, JSValue.NumberValue]
  cases b <;>
    simp [validateLoop, JSValue.IsFunction, JSValue.IsNumber, JSValue.IsUndefined,
      JSValue.NumberValue, JSValue.asFunction, firstFunction, beforeCallback,
      claimedMaxtime, claimedMaxmem, claimedMaxmemfrac, TranslationInfo.new] at h ⊢
  · -- second argument undefined
    rcases args2 with _ | ⟨c, rest⟩
    · simp [validateLoop, firstFunction]
    cases c <;>
      simp [validateLoop, validateLoop_three, JSValue.IsFunction, JSValue.IsNumber,
        JSValue.IsUndefined, JSValue.NumberValue, JSValue.asFunction, firstFunction] at h ⊢
    · cases firstFunction rest <;> simp
    · rename_i f
      by_cases hf : f.gtZero = true <;> simp [hf] <;> cases firstFunction rest <;> simp
  · -- second argument a number
    rename_i m
    rcases args2 with _ | ⟨c, rest⟩
    · by_cases hm : m.gtZero = true <;> simp [hm, validateLoop, firstFunction]
    by_cases hm : m.gtZero = true <;> simp only [hm] at h ⊢ <;>
    cases c <;>
      simp [validateLoop, validateLoop_three, JSValue.IsFunction, JSValue.IsNumber,
        JSValue.IsUndefined, JSValue.NumberValue, JSValue.asFunction, firstFunction] at h ⊢
    all_goals first
      | (cases firstFunction rest <;> simp; done)
      | (rename_i f
         by_cases hf : f.gtZero = true <;> simp [hf] <;> cases firstFunction rest <;> simp)

/-- No callback is found exactly when no value is a function. -/
theorem firstFunction_eq_none (l : List JSValue) :
    firstFunction l = none ↔ l.any JSValue.IsFunction = false := by
  induction l with
  | nil => simp [firstFunction]
  | cons v l ih => cases v <;> simp_all [firstFunction, JSValue.IsFunction]

/-- When validation succeeds, `callback` is the first function after the first
argument. -/
theorem callback_of_validate (env : Env) (args : List JSValue)
    (h : (ValidateArguments env args "" (TranslationInfo.new env.raw)).1 = 0) :
    (ValidateArguments env args "" (TranslationInfo.new env.raw)).2.2.callback
      = firstFunction args.tail := by
  rw [validate_ok env args h]

/-! ### Dispatch -/

/-- A call whose arguments fail validation throws the `TypeError` and returns
`undefined`. -/
theorem Params_invalid (env : Env) (args : List JSValue)
    (h : (ValidateArguments env args "" (TranslationInfo.new env.raw)).1 ≠ 0) :
    Params env args
      = (HostValue.undefined,
         [Effect.throwException (HostValue.typeError
            (ValidateArguments env args "" (TranslationInfo.new env.raw)).2.1)]) := by
  simp [Params, h]

/-- A validated call without callback runs the search inline. -/
theorem Params_sync (env : Env) (args : List JSValue)
    (h : (ValidateArguments env args "" (TranslationInfo.new env.raw)).1 = 0)
    (hc : (ValidateArguments env args "" (TranslationInfo.new env.raw)).2.2.callback.isNone
      = true) :
    Params env args
      = ((ParamsSyncAfterWork (ParamsWork env
            (ValidateArguments env args "" (TranslationInfo.new env.raw)).2.2).1).1,
         (ParamsWork env (ValidateArguments env args "" (TranslationInfo.new env.raw)).2.2).2
          ++ (ParamsSyncAfterWork (ParamsWork env
            (ValidateArguments env args "" (TranslationInfo.new env.raw)).2.2).1).2) := by
  simp [Params, h, hc]

/-- A validated call with a callback queues the work and returns `undefined`. -/
theorem Params_async (env : Env) (args : List JSValue)
    (h : (ValidateArguments env args "" (TranslationInfo.new env.raw)).1 = 0)
    (hc : (ValidateArguments env args "" (TranslationInfo.new env.raw)).2.2.callback.isNone
      = false) :
    Params env args
      = (HostValue.undefined,
         [Effect.queueWork (ValidateArguments env args "" (TranslationInfo.new env.raw)).2.2]) := by
  simp [Params, h, hc]

/-- The asynchronous after-work function does not call `pickparams`. -/
theorem filter_pick_asyncAfter (env : Env) (ti : TranslationInfo) :
    (ParamsAsyncAfterWork env ti).filter Effect.isPickparams = [] := by
  simp only [ParamsAsyncAfterWork, callWithTryCatch]
  split <;> split <;> simp [Effect.isPickparams]

/-- The synchronous after-work function does not call `pickparams`. -/
theorem filter_pick_syncAfter (ti : TranslationInfo) :
    (ParamsSyncAfterWork ti).2.filter Effect.isPickparams = [] := by
  simp only [ParamsSyncAfterWork]
  split <;> simp [Effect.isPickparams]

/-- The synchronous after-work function queues no work. -/
theorem runQueued_syncAfter (env : Env) (ti : TranslationInfo) :
    ((ParamsSyncAfterWork ti).2.map (runQueued env)).flatten = [] := by
  simp only [ParamsSyncAfterWork]
  split <;> simp [runQueued]

/-- A validated call leads to exactly one call of `pickparams`, with the budget
stored in `translationInfo`. -/
theorem searchCalls_of_validate (env : Env) (args : List JSValue)
    (h : (ValidateArguments env args "" (TranslationInfo.new env.raw)).1 = 0) :
    searchCalls env args
      = [Effect.pickparams
          (ValidateArguments env args "" (TranslationInfo.new env.raw)).2.2.maxtime
          (ValidateArguments env args "" (TranslationInfo.new env.raw)).2.2.maxmem
          (ValidateArguments env args "" (TranslationInfo.new env.raw)).2.2.maxmemfrac] := by
  by_cases hc : (ValidateArguments env args "" (TranslationInfo.new env.raw)).2.2.callback.isNone
      = true
  · rw [searchCalls, deferredEffects, Params_sync env args h hc]
    simp [ParamsWork, runQueued, Effect.isPickparams, filter_pick_syncAfter,
      runQueued_syncAfter]
  · rw [searchCalls, deferredEffects, Params_async env args h (Bool.eq_false_iff.mpr hc)]
    simp [ParamsAsyncWork, ParamsWork, runQueued, Effect.isPickparams, filter_pick_asyncAfter]

/-! ### Rejection of a non-positive `maxtime` -/

/-- Claim C1: for every argument list whose first argument is a number `d` with
`d <= 0`, whatever follows it (further arguments, a callback), `Params` returns
`undefined` after throwing the `TypeError` "maxtime must be greater than 0",
and the parameter search is not started: no effect of the call is a call of
`pickparams` or a queued work request, and nothing runs later. -/
theorem Params_rejects_nonpositive_maxtime (env : Env) (d : Double) (rest : List JSValue)
    (h : d.leZero = true) :
    Params env (JSValue.number d :: rest)
        = (HostValue.undefined,
           [Effect.throwException (HostValue.typeError "maxtime must be greater than 0")])
      ∧ (∀ e ∈ (Params env (JSValue.number d :: rest)).2, e.startsSearch = false)
      ∧ deferredEffects env (JSValue.number d :: rest) = [] := by
  have hP : Params env (JSValue.number d :: rest)
        = (HostValue.undefined,
           [Effect.throwException (HostValue.typeError "maxtime must be greater than 0")]) := by
    simp [Params, ValidateArguments, validateLoop, JSValue.IsFunction, JSValue.IsNumber,
      JSValue.NumberValue, h]
  refine ⟨hP, ?_, ?_⟩
  · intro e he
    rw [hP] at he
    simp at he
    subst he
    rfl
  · simp [deferredEffects, hP, runQueued]

/-- Claim C1 at `(0, 1, f)`. -/
theorem Params_rejects_nonpositive_maxtime_witness :
    Double.leZero (Double.fin 0 0) = true
    ∧ Params exampleEnv
        [JSValue.number (Double.fin 0 0), JSValue.number (Double.fin 1 0), JSValue.function 7]
      = (HostValue.undefined,
         [Effect.throwException (HostValue.typeError "maxtime must be greater than 0")]) :=
  ⟨by decide, (Params_rejects_nonpositive_maxtime exampleEnv _ _ (by decide)).1⟩

/-- Claim C10 at the failing input: the single argument `NaN` passes
validation, and `Params` calls `pickparams` with `maxtime = NaN`, which is not
greater than `0`. -/
theorem Params_forwards_nan_maxtime (env : Env) :
    (ValidateArguments env [JSValue.number Double.nan] "" (TranslationInfo.new env.raw)).1 = 0
    ∧ (Params env [JSValue.number Double.nan]).2.head?
        = some (Effect.pickparams Double.nan MAXMEM MAXMEMFRAC)
    ∧ Double.gtZero Double.nan = false := by
  refine ⟨by simp [ValidateArguments, validateLoop, JSValue.IsFunction, JSValue.IsNumber,
      JSValue.NumberValue, Double.leZero], ?_, rfl⟩
  simp [Params, ValidateArguments, validateLoop, JSValue.IsFunction, JSValue.IsNumber,
      JSValue.NumberValue, Double.leZero, TranslationInfo.new, ParamsWork]

/-! ### The budget handed to the search -/

/-- Claim C3 fails as stated: `(1, f, 1)` passes validation and its third
argument `1` is greater than `0`, yet the search receives `maxmemfrac = 0.5`,
not `1`: arguments that follow the callback are not looked at. -/
theorem budget_ignores_argument_after_callback :
    (ValidateArguments exampleEnv
        [JSValue.number (Double.fin 1 0), JSValue.function 7, JSValue.number (Double.fin 1 0)]
        "" (TranslationInfo.new exampleEnv.raw)).1 = 0
    ∧ searchCalls exampleEnv
        [JSValue.number (Double.fin 1 0), JSValue.function 7, JSValue.number (Double.fin 1 0)]
      = [Effect.pickparams (Double.fin 1 0) 0 (Double.fin 1 (-1))]
    ∧ claimedMaxmemfrac
        [JSValue.number (Double.fin 1 0), JSValue.function 7, JSValue.number (Double.fin 1 0)]
      = Double.fin 1 0
    ∧ searchCalls exampleEnv
        [JSValue.number (Double.fin 1 0), JSValue.function 7, JSValue.number (Double.fin 1 0)]
      ≠ [Effect.pickparams
          (claimedMaxtime
            [JSValue.number (Double.fin 1 0), JSValue.function 7, JSValue.number (Double.fin 1 0)])
          (claimedMaxmem exampleEnv
            [JSValue.number (Double.fin 1 0), JSValue.function 7, JSValue.number (Double.fin 1 0)])
          (claimedMaxmemfrac
            [JSValue.number (Double.fin 1 0), JSValue.function 7,
             JSValue.number (Double.fin 1 0)])] := by
  decide

/-- Claim C3 as amended: for every argument list that passes validation the
search is called exactly once, with `maxtime` the first argument, `maxmem` the
default `0` when the second argument is omitted, undefined, a function or not
greater than `0` and else the caller's value converted to `size_t`, and
`maxmemfrac` the default `0.5` when the second argument is a function or the
third argument is omitted, undefined, a function or not greater than `0`, and
else the caller's value. -/
theorem Params_budget_forwarded (env : Env) (args : List JSValue)
    (h : (ValidateArguments env args "" (TranslationInfo.new env.raw)).1 = 0) :
    searchCalls env args
      = [Effect.pickparams (claimedMaxtime args) (claimedMaxmem env args)
          (forwardedMaxmemfrac args)] := by
  rw [searchCalls_of_validate env args h, validate_ok env args h]
  rcases args with _ | ⟨a, _ | ⟨b, _ | ⟨c, rest⟩⟩⟩
  · simp [ValidateArguments] at h
  · simp [beforeCallback, claimedMaxtime, claimedMaxmem, claimedMaxmemfrac, forwardedMaxmemfrac]
  · cases b <;>
      simp [beforeCallback, claimedMaxtime, claimedMaxmem, claimedMaxmemfrac, forwardedMaxmemfrac,
        JSValue.IsFunction, List.takeWhile]
  · cases b <;> cases c <;>
      simp [beforeCallback, claimedMaxtime, claimedMaxmem, claimedMaxmemfrac, forwardedMaxmemfrac,
        JSValue.IsFunction, List.takeWhile]

/-- Claim C3 as amended, at `(1, 3 * 2 ^ 20, 0.25, f)`. -/
theorem Params_budget_forwarded_witness :
    (ValidateArguments exampleEnv
        [JSValue.number (Double.fin 1 0), JSValue.number (Double.fin 3 20),
         JSValue.number (Double.fin 1 (-2)), JSValue.function 7]
        "" (TranslationInfo.new exampleEnv.raw)).1 = 0
    ∧ searchCalls exampleEnv
        [JSValue.number (Double.fin 1 0), JSValue.number (Double.fin 3 20),
         JSValue.number (Double.fin 1 (-2)), JSValue.function 7]
      = [Effect.pickparams (Double.fin 1 0) 3145728 (Double.fin 1 (-2))] :=
  ⟨by decide, Params_budget_forwarded exampleEnv _ (by decide)⟩

/-! ### Synchronous or deferred execution -/

/-- Claim C4 fails as stated: `(1, f, 1)` passes validation and its last
argument is not a function, yet the call is deferred. -/
theorem deferred_without_trailing_callback :
    (ValidateArguments exampleEnv
        [JSValue.number (Double.fin 1 0), JSValue.function 7, JSValue.number (Double.fin 1 0)]
        "" (TranslationInfo.new exampleEnv.raw)).1 = 0
    ∧ trailingCallback
        [JSValue.number (Double.fin 1 0), JSValue.function 7, JSValue.number (Double.fin 1 0)]
      = false
    ∧ Params exampleEnv
        [JSValue.number (Double.fin 1 0), JSValue.function 7, JSValue.number (Double.fin 1 0)]
      = (HostValue.undefined,
         [Effect.queueWork ⟨some 7, 0, 0, Double.fin 1 (-1), Double.fin 1 0, 0, 0, 0⟩]) := by
  decide

/-- Claim C4 as amended: for every argument list that passes validation,
`Params` queues the search and returns `undefined` at once if and only if some
argument after the first is a function, and the queued work then calls
`pickparams` and hands the outcome to `ParamsAsyncAfterWork`; when none is, it
calls `pickparams` inline, returns what `ParamsSyncAfterWork` returns and
leaves nothing to run later. -/
theorem Params_deferred_iff_callback_supplied (env : Env) (args : List JSValue)
    (h : (ValidateArguments env args "" (TranslationInfo.new env.raw)).1 = 0) :
    ((∃ ti, Params env args = (HostValue.undefined, [Effect.queueWork ti]))
        ↔ callbackSupplied args = true)
    ∧ (callbackSupplied args = true →
        ∃ ti, Params env args = (HostValue.undefined, [Effect.queueWork ti])
          ∧ deferredEffects env args
              = Effect.pickparams ti.maxtime ti.maxmem ti.maxmemfrac
                  :: ParamsAsyncAfterWork env (ParamsWork env ti).1)
    ∧ (callbackSupplied args = false →
        ∃ ti, (Params env args).1 = (ParamsSyncAfterWork (ParamsWork env ti).1).1
          ∧ (Params env args).2
              = Effect.pickparams ti.maxtime ti.maxmem ti.maxmemfrac
                  :: (ParamsSyncAfterWork (ParamsWork env ti).1).2
          ∧ deferredEffects env args = []) := by
  have hcb := callback_of_validate env args h
  have hnone := firstFunction_eq_none args.tail
  by_cases hs : callbackSupplied args = true
  · have hsome :
        ((ValidateArguments env args "" (TranslationInfo.new env.raw)).2.2.callback).isNone
          = false := by
      rw [hcb]
      cases hff : firstFunction args.tail with
      | none =>
        have := hnone.mp hff
        rw [callbackSupplied, this] at hs
        exact absurd hs (by simp)
      | some f => rfl
    have hP := Params_async env args h hsome
    refine ⟨⟨fun _ => hs, fun _ => ⟨_, hP⟩⟩, fun _ => ⟨_, hP, ?_⟩, ?_⟩
    · simp [deferredEffects, hP, runQueued, ParamsAsyncWork, ParamsWork]
    · intro hf; rw [hs] at hf; exact absurd hf (by simp)
  · have hs' : callbackSupplied args = false := by simpa using hs
    have hisNone :
        ((ValidateArguments env args "" (TranslationInfo.new env.raw)).2.2.callback).isNone
          = true := by
      rw [hcb, hnone.mpr (by simpa [callbackSupplied] using hs')]; rfl
    have hP := Params_sync env args h hisNone
    refine ⟨⟨?_, fun hh => absurd hh hs⟩, fun hh => absurd hh hs, ?_⟩
    · rintro ⟨ti, hti⟩
      rw [hP] at hti
      simp [ParamsWork] at hti
    · intro _
      refine ⟨_, by rw [hP], by rw [hP]; simp [ParamsWork], ?_⟩
      rw [deferredEffects, hP]
      simp [ParamsWork, runQueued, runQueued_syncAfter]

/-- Claim C4 as amended, at `(1, f)`. -/
theorem Params_deferred_iff_callback_supplied_witness :
    (ValidateArguments exampleEnv [JSValue.number (Double.fin 1 0), JSValue.function 7] ""
        (TranslationInfo.new exampleEnv.raw)).1 = 0
    ∧ callbackSupplied [JSValue.number (Double.fin 1 0), JSValue.function 7] = true
    ∧ ∃ ti, Params exampleEnv [JSValue.number (Double.fin 1 0), JSValue.function 7]
        = (HostValue.undefined, [Effect.queueWork ti]) :=
  ⟨by decide, by decide,
   (Params_deferred_iff_callback_supplied exampleEnv _ (by decide)).1.mpr (by decide)⟩

/-! ### Delivery of the outcome -/

/-- Claim C5: for every state `ti` left by the search, with result code
`ti.result` and triple `ti.N, ti.r, ti.p`: if the code is `0`, the synchronous
path returns the object built from the triple and throws nothing, and the
asynchronous path calls the callback with `null` and that same object; if the
code is not `0`, the synchronous path throws `MakeErrorObject(2, "", code)` and
returns `undefined`, and the asynchronous path calls the callback with that
same error object as its only argument.  Apart from the callback call the
asynchronous path does nothing but report an exception the callback threw. -/
theorem sync_async_same_outcome (env : Env) (ti : TranslationInfo) :
    (ti.result = 0 →
        ParamsSyncAfterWork ti = (createJSONObject ti.N ti.r ti.p, [])
        ∧ (ParamsAsyncAfterWork env ti).head?
            = some (Effect.callCallback ti.callback
                [HostValue.null, createJSONObject ti.N ti.r ti.p])
        ∧ ∀ e ∈ (ParamsAsyncAfterWork env ti).tail, e = Effect.fatalException)
    ∧ (ti.result ≠ 0 →
        ParamsSyncAfterWork ti
            = (HostValue.undefined,
               [Effect.throwException (HostValue.errorObject 2 "" ti.result)])
        ∧ (ParamsAsyncAfterWork env ti).head?
            = some (Effect.callCallback ti.callback [HostValue.errorObject 2 "" ti.result])
        ∧ ∀ e ∈ (ParamsAsyncAfterWork env ti).tail, e = Effect.fatalException) := by
  constructor
  · intro h
    refine ⟨by simp [ParamsSyncAfterWork, h],
      by simp [ParamsAsyncAfterWork, h, callWithTryCatch], ?_⟩
    intro e he
    simp only [ParamsAsyncAfterWork, h, callWithTryCatch] at he
    split at he <;> simp_all
  · intro h
    refine ⟨by simp [ParamsSyncAfterWork, h, MakeErrorObject],
      by simp [ParamsAsyncAfterWork, h, callWithTryCatch, MakeErrorObject], ?_⟩
    intro e he
    simp only [ParamsAsyncAfterWork, h, callWithTryCatch] at he
    split at he <;> simp_all

/-- Claim C5 at a search that failed with code `7`. -/
theorem sync_async_same_outcome_witness :
    ParamsSyncAfterWork ⟨some 3, 7, 0, MAXMEMFRAC, Double.fin 1 0, 0, 0, 0⟩
        = (HostValue.undefined, [Effect.throwException (HostValue.errorObject 2 "" 7)])
    ∧ (ParamsAsyncAfterWork exampleEnv
          ⟨some 3, 7, 0, MAXMEMFRAC, Double.fin 1 0, 0, 0, 0⟩).head?
        = some (Effect.callCallback (some 3) [HostValue.errorObject 2 "" 7]) :=
  ⟨((sync_async_same_outcome exampleEnv
      ⟨some 3, 7, 0, MAXMEMFRAC, Double.fin 1 0, 0, 0, 0⟩).2 (by decide)).1,
   ((sync_async_same_outcome exampleEnv
      ⟨some 3, 7, 0, MAXMEMFRAC, Double.fin 1 0, 0, 0, 0⟩).2 (by decide)).2.1⟩

/-- Claim C6 fails as stated: `(0, f)` supplies a callback and fails, and the
error is thrown to the caller; the callback is never called. -/
theorem invalid_argument_thrown_despite_callback :
    callbackSupplied [JSValue.number (Double.fin 0 0), JSValue.function 7] = true
    ∧ Params exampleEnv [JSValue.number (Double.fin 0 0), JSValue.function 7]
        = (HostValue.undefined,
           [Effect.throwException (HostValue.typeError "maxtime must be greater than 0")])
    ∧ deferredEffects exampleEnv [JSValue.number (Double.fin 0 0), JSValue.function 7] = [] := by
  decide

/-- Claim C6 as amended: for every call of `Params` with a function after the
first argument, if the arguments pass validation the call returns `undefined`
without throwing and queues the work, and a non-zero result code of the search
reaches the callback as its only argument, in an error object with that code;
if validation fails the error is thrown to the caller as a `TypeError` and
nothing is queued, so the callback is never called. -/
theorem callback_error_delivery (env : Env) (args : List JSValue)
    (hcb : callbackSupplied args = true) :
    ((ValidateArguments env args "" (TranslationInfo.new env.raw)).1 = 0 →
        Params env args
            = (HostValue.undefined,
               [Effect.queueWork (ValidateArguments env args "" (TranslationInfo.new env.raw)).2.2])
        ∧ ((ParamsWork env
              (ValidateArguments env args "" (TranslationInfo.new env.raw)).2.2).1.result ≠ 0 →
            deferredEffects env args
              = (ParamsWork env
                  (ValidateArguments env args "" (TranslationInfo.new env.raw)).2.2).2
                ++ callWithTryCatch env (firstFunction args.tail)
                    [HostValue.errorObject 2 ""
                      (ParamsWork env
                        (ValidateArguments env args "" (TranslationInfo.new env.raw)).2.2).1.result]
            ∧ (firstFunction args.tail).isSome = true))
    ∧ ((ValidateArguments env args "" (TranslationInfo.new env.raw)).1 ≠ 0 →
        Params env args
            = (HostValue.undefined,
               [Effect.throwException (HostValue.typeError
                  (ValidateArguments env args "" (TranslationInfo.new env.raw)).2.1)])
        ∧ deferredEffects env args = []) := by
  constructor
  · intro h
    have hcall := callback_of_validate env args h
    have hsome : (firstFunction args.tail).isSome = true := by
      cases hff : firstFunction args.tail with
      | none =>
        have := (firstFunction_eq_none args.tail).mp hff
        rw [callbackSupplied, this] at hcb
        exact absurd hcb (by simp)
      | some f => rfl
    have hnot : ((ValidateArguments env args "" (TranslationInfo.new env.raw)).2.2.callback).isNone
        = false := by
      rw [hcall]; cases hff : firstFunction args.tail with
      | none => rw [hff] at hsome; exact absurd hsome (by simp)
      | some f => rfl
    have hP : Params env args = (HostValue.undefined,
        [Effect.queueWork (ValidateArguments env args "" (TranslationInfo.new env.raw)).2.2]) := by
      simp [Params, h, hnot]
    refine ⟨hP, fun hres => ⟨?_, hsome⟩⟩
    rw [deferredEffects, hP]
    have hcb2 : (ParamsWork env
        (ValidateArguments env args "" (TranslationInfo.new env.raw)).2.2).1.callback
        = firstFunction args.tail := by
      rw [← hcall]; rfl
    simp [runQueued, ParamsAsyncWork, ParamsAsyncAfterWork, hres, MakeErrorObject, hcb2]
  · intro h
    have hP : Params env args = (HostValue.undefined,
        [Effect.throwException (HostValue.typeError
          (ValidateArguments env args "" (TranslationInfo.new env.raw)).2.1)]) := by
      simp [Params, h]
    exact ⟨hP, by rw [deferredEffects, hP]; simp [runQueued]⟩

/-- Claim C6 as amended, at `(1, f)` with a search that fails with code `7`. -/
theorem callback_error_delivery_witness :
    callbackSupplied [JSValue.number (Double.fin 1 0), JSValue.function 7] = true
    ∧ (ValidateArguments failingEnv [JSValue.number (Double.fin 1 0), JSValue.function 7] ""
        (TranslationInfo.new failingEnv.raw)).1 = 0
    ∧ Params failingEnv [JSValue.number (Double.fin 1 0), JSValue.function 7]
        = (HostValue.undefined,
           [Effect.queueWork ⟨some 7, 0, 0, Double.fin 1 (-1), Double.fin 1 0, 0, 0, 0⟩])
    ∧ deferredEffects failingEnv [JSValue.number (Double.fin 1 0), JSValue.function 7]
        = [Effect.pickparams (Double.fin 1 0) 0 (Double.fin 1 (-1)),
           Effect.callCallback (some 7) [HostValue.errorObject 2 "" 7]] := by
  have h := callback_error_delivery failingEnv
    [JSValue.number (Double.fin 1 0), JSValue.function 7] (by decide)
  have h0 : (ValidateArguments failingEnv [JSValue.number (Double.fin 1 0), JSValue.function 7] ""
        (TranslationInfo.new failingEnv.raw)).1 = 0 := by decide
  refine ⟨by decide, h0, (h.1 h0).1, ?_⟩
  rw [((h.1 h0).2 (by decide)).1]
  decide

/-! ### The result object -/

/-- Below `2 ^ 31` the conversion to `int32_t` keeps the value. -/
theorem toInt32_of_lt (u : Nat) (hu : u < 2 ^ 31) : toInt32 u = (u : Int) := by
  have h1 : u % 2 ^ 32 = u := Nat.mod_eq_of_lt (by omega)
  unfold toInt32
  rw [h1, if_pos hu]

/-- Claim C7 fails as stated: for `(2, 2 ^ 31, 1)` the field `r` holds
`-2147483648`, not `2147483648`; and for `(-1, 8, 1)` the field `N` holds `-1`,
which is no unsigned integer. -/
theorem createJSONObject_changes_values :
    createJSONObject 2 (2 ^ 31) 1
        = HostValue.object [("N", 2), ("r", -2147483648), ("p", 1)]
    ∧ createJSONObject 2 (2 ^ 31) 1
        ≠ HostValue.object [("N", 2), ("r", ((2 ^ 31 : Nat) : Int)), ("p", ((1 : Nat) : Int))]
    ∧ createJSONObject (-1) 8 1
        = HostValue.object [("N", -1), ("r", 8), ("p", 1)] := by
  decide

/-- Claim C7 as amended: for every `int` `N` and all `r`, `p` below `2 ^ 31`,
the result object has exactly the fields `N`, `r`, `p`, each with the value
returned by the search (so `r` and `p` are not negative, and `N` is as
returned). -/
theorem createJSONObject_preserves_values (N : Int) (r p : Nat)
    (hr : r < 2 ^ 31) (hp : p < 2 ^ 31) :
    createJSONObject N r p = HostValue.object [("N", N), ("r", (r : Int)), ("p", (p : Int))] := by
  simp [createJSONObject, IntegerNew, toInt32_of_lt r hr, toInt32_of_lt p hp]

/-- Claim C7 as amended, at `(1024, 8, 1)`. -/
theorem createJSONObject_preserves_values_witness :
    (8 : Nat) < 2 ^ 31 ∧ (1 : Nat) < 2 ^ 31
    ∧ createJSONObject 1024 8 1
        = HostValue.object [("N", 1024), ("r", ((8 : Nat) : Int)), ("p", ((1 : Nat) : Int))] :=
  ⟨by decide, by decide, createJSONObject_preserves_values 1024 8 1 (by decide) (by decide)⟩

/-! ### The reported `N` -/

/-- Started at a power of two, the doubling search ends at a power of two that
is not smaller. -/
theorem searchN_pow (memlimit opslimit opsFactor r : Nat) :
    ∀ (fuel j : Nat),
      ∃ k, j ≤ k ∧ searchN memlimit opslimit opsFactor r fuel (2 ^ j) = 2 ^ k := by
  intro fuel
  induction fuel with
  | zero => intro j; exact ⟨j, le_refl j, rfl⟩
  | succ fuel ih =>
    intro j
    simp only [searchN]
    split_ifs with h
    · obtain ⟨k, hk, e⟩ := ih (j + 1)
      refine ⟨k, by omega, ?_⟩
      rw [← e, pow_succ, Nat.mul_comm]
    · exact ⟨j, le_refl j, rfl⟩

/-- With `r ≥ 1` and `fuel + N` above `memlimit` the fuel never cuts the search
short: the value selected satisfies both bounds and its double does not. -/
theorem searchN_maximal (memlimit opslimit opsFactor r : Nat) (hr : 1 ≤ r) :
    ∀ (fuel N : Nat), 1 ≤ N → memlimit < fuel + N →
      fitsBounds memlimit opslimit opsFactor r N = true →
      fitsBounds memlimit opslimit opsFactor r
          (searchN memlimit opslimit opsFactor r fuel N) = true
        ∧ fitsBounds memlimit opslimit opsFactor r
          (2 * searchN memlimit opslimit opsFactor r fuel N) = false := by
  intro fuel
  induction fuel with
  | zero =>
    intro N hN hfuel hfit
    refine ⟨hfit, ?_⟩
    simp only [searchN, fitsBounds, Bool.and_eq_false_iff, decide_eq_false_iff_not, not_le]
    left
    have : 1 * (2 * N) ≤ r * (2 * N) := Nat.mul_le_mul_right _ hr
    nlinarith
  | succ fuel ih =>
    intro N hN hfuel hfit
    simp only [searchN]
    split_ifs with h
    · exact ih (2 * N) (by omega) (by omega) h
    · exact ⟨hfit, by simpa using h⟩

/-- Every triple the specified search returns has `N = 2 ^ k` with `k ≥ 1`. -/
theorem PickParameters_pow (m : Machine) (maxtime : Double) (maxmem : Nat) (maxmemfrac : Double)
    (cp : CostParameters) (h : PickParameters m maxtime maxmem maxmemfrac = Except.ok cp) :
    ∃ k, 1 ≤ k ∧ cp.N = 2 ^ k := by
  unfold PickParameters at h
  split_ifs at h with h0
  cases hops : m.opsBudget maxtime with
  | none => rw [hops] at h; simp at h
  | some ops =>
    rw [hops] at h
    simp only at h
    split_ifs at h with h1
    simp only [Except.ok.injEq] at h
    subst h
    obtain ⟨k, hk, e⟩ := searchN_pow (m.memlimit maxmem maxmemfrac) (max ops (2 ^ 15))
      m.opsFactor (m.rFactor (m.memlimit maxmem maxmemfrac) (max ops (2 ^ 15)))
      (m.memlimit maxmem maxmemfrac) 1
    exact ⟨k, hk, by simpa using e⟩

/-- When the specified `pickparams` returns `0`, the `N` it stored is `2 ^ k`
with `k ≥ 1`. -/
theorem specPickparams_ok (m : Machine) (code : ErrorKind → Int) (hcode : ∀ k, code k ≠ 0)
    (N : Int) (r p : Nat) (maxtime : Double) (maxmem : Nat) (maxmemfrac : Double)
    (h : (specPickparams m code N r p maxtime maxmem maxmemfrac).result = 0) :
    ∃ k, 1 ≤ k
      ∧ (specPickparams m code N r p maxtime maxmem maxmemfrac).N = (2 : Int) ^ k := by
  unfold specPickparams at h ⊢
  cases hpp : PickParameters m maxtime maxmem maxmemfrac with
  | error e => rw [hpp] at h; exact absurd h (hcode e)
  | ok cp =>
    obtain ⟨k, hk, e⟩ := PickParameters_pow m maxtime maxmem maxmemfrac cp hpp
    exact ⟨k, hk, by simp [e]⟩

/-- The synchronous path returns an object only for result code `0`, and then
the one built from `N`, `r`, `p`. -/
theorem syncAfter_object (ti : TranslationInfo) (fields : List (String × Int))
    (h : (ParamsSyncAfterWork ti).1 = HostValue.object fields) :
    ti.result = 0 ∧ HostValue.object fields = createJSONObject ti.N ti.r ti.p := by
  unfold ParamsSyncAfterWork at h
  by_cases hr : ti.result = 0
  · simp [hr] at h
    exact ⟨hr, by rw [← h]⟩
  · simp [hr] at h

/-- The asynchronous path passes `null` and an object only for result code `0`,
and then the one built from `N`, `r`, `p`. -/
theorem asyncAfter_object (env : Env) (ti : TranslationInfo) (fn : Option Nat)
    (fields : List (String × Int))
    (h : Effect.callCallback fn [HostValue.null, HostValue.object fields]
          ∈ ParamsAsyncAfterWork env ti) :
    ti.result = 0 ∧ HostValue.object fields = createJSONObject ti.N ti.r ti.p := by
  unfold ParamsAsyncAfterWork callWithTryCatch at h
  by_cases hr : ti.result = 0
  · simp only [hr, ne_eq, not_true_eq_false, if_false] at h
    split_ifs at h <;> simp at h <;> exact ⟨hr, by rw [h.2]⟩
  · simp only [hr, ne_eq, not_false_eq_true, if_true] at h
    split_ifs at h <;> simp [MakeErrorObject] at h

/-- Claim C2, with `pickparams` as the specification describes it: whenever a
call of `Params` succeeds, synchronously (an object is returned) or through
the callback (it is called with `null` and an object), the object is
`N, r, p` with `N = 2 ^ k` for some `k ≥ 1`. -/
theorem Params_success_N_power_of_two (m : Machine) (code : ErrorKind → Int)
    (hcode : ∀ k, code k ≠ 0) (env : Env) (henv : env.pickparams = specPickparams m code)
    (args : List JSValue) :
    (∀ fields, (Params env args).1 = HostValue.object fields →
        ∃ k r p, 1 ≤ k ∧ fields = [("N", (2 : Int) ^ k), ("r", r), ("p", p)])
    ∧ (∀ fn fields,
        Effect.callCallback fn [HostValue.null, HostValue.object fields]
            ∈ deferredEffects env args →
        ∃ k r p, 1 ≤ k ∧ fields = [("N", (2 : Int) ^ k), ("r", r), ("p", p)]) := by
  have key : ∀ (ti : TranslationInfo) (fields : List (String × Int)),
      (ParamsWork env ti).1.result = 0 →
      HostValue.object fields
        = createJSONObject (ParamsWork env ti).1.N (ParamsWork env ti).1.r
            (ParamsWork env ti).1.p →
      ∃ k r p, 1 ≤ k ∧ fields = [("N", (2 : Int) ^ k), ("r", r), ("p", p)] := by
    intro ti fields h0 hobj
    simp only [ParamsWork, henv] at h0 hobj
    obtain ⟨k, hk, e⟩ := specPickparams_ok m code hcode _ _ _ _ _ _ h0
    rw [e] at hobj
    simp only [createJSONObject, IntegerNew, HostValue.object.injEq] at hobj
    exact ⟨k, _, _, hk, hobj⟩
  by_cases hv : (ValidateArguments env args "" (TranslationInfo.new env.raw)).1 = 0
  · by_cases hc : (ValidateArguments env args "" (TranslationInfo.new env.raw)).2.2.callback.isNone
        = true
    · have hP := Params_sync env args hv hc
      constructor
      · intro fields h
        rw [hP] at h
        obtain ⟨h0, hobj⟩ := syncAfter_object _ fields h
        exact key _ fields h0 hobj
      · intro fn fields h
        rw [deferredEffects, hP] at h
        simp [ParamsWork, runQueued, runQueued_syncAfter] at h
    · have hP := Params_async env args hv (Bool.eq_false_iff.mpr hc)
      constructor
      · intro fields h
        rw [hP] at h
        simp at h
      · intro fn fields h
        rw [deferredEffects, hP] at h
        simp only [List.map_cons, List.map_nil, runQueued, ParamsAsyncWork, List.flatten,
          List.append_nil, List.mem_append] at h
        rcases h with h | h
        · simp [ParamsWork] at h
        · obtain ⟨h0, hobj⟩ := asyncAfter_object env _ fn fields h
          exact key _ fields h0 hobj
  · have hP := Params_invalid env args hv
    constructor
    · intro fields h
      rw [hP] at h
      simp at h
    · intro fn fields h
      rw [deferredEffects, hP] at h
      simp [runQueued] at h

/-- Claim C2 at the call `Params(1)` on `exampleMachine`, which returns
`N = 1024 = 2 ^ 10`. -/
theorem Params_success_N_power_of_two_witness :
    (∀ k, exampleCode k ≠ 0)
    ∧ (Params specEnv [JSValue.number (Double.fin 1 0)]).1
        = HostValue.object [("N", 1024), ("r", 8), ("p", 32)]
    ∧ ∃ k r p, 1 ≤ k
        ∧ [("N", (1024 : Int)), ("r", 8), ("p", 32)]
            = [("N", (2 : Int) ^ k), ("r", r), ("p", p)] :=
  ⟨fun k => by cases k <;> decide, by decide,
   (Params_success_N_power_of_two exampleMachine exampleCode (fun k => by cases k <;> decide)
      specEnv rfl [JSValue.number (Double.fin 1 0)]).1 _ (by decide)⟩

/-! ### Failure of `getsalt` -/

/-- The read loop leaves through `err1` only after a `read` that returned an
error or end of file. -/
theorem fillLoop_false (reads : List ReadOutcome) :
    ∀ (mem : List Nat) (off buflen : Nat) (mem1 : List Nat) (calls : List SysCall),
      fillLoop reads mem off buflen = some (false, mem1, calls) →
      ∃ c ∈ calls, c.readFailed = true := by
  induction reads with
  | nil =>
    intro mem off buflen mem1 calls h
    simp only [fillLoop] at h
    split at h <;> simp at h
  | cons out rest ih =>
    intro mem off buflen mem1 calls h
    simp only [fillLoop] at h
    split_ifs at h with h0 h1 h2
    · simp at h
    · simp only [Option.some.injEq, Prod.mk.injEq] at h
      rcases h with ⟨_, _, rfl⟩
      exact ⟨_, List.mem_singleton_self _, by simp [SysCall.readFailed, h1]⟩
    · simp only [Option.some.injEq, Prod.mk.injEq] at h
      rcases h with ⟨_, _, rfl⟩
      exact ⟨_, List.mem_singleton_self _, by simp [SysCall.readFailed, h2]⟩
    · simp only [Option.map_eq_some', Prod.mk.injEq] at h
      rcases h with ⟨⟨b, m, cs⟩, hr, hb, _, rfl⟩
      simp only at hb
      subst hb
      rcases ih _ _ _ _ _ hr with ⟨c, hc, hf⟩
      exact ⟨c, List.mem_cons_of_mem _ hc, hf⟩

/-- The close loop leaves through `err0` only after a `close` that failed with
an `errno` other than `EINTR`. -/
theorem closeLoop_false (closes : List CloseOutcome) :
    ∀ (calls : List SysCall), closeLoop closes = some (false, calls) →
      ∃ c ∈ calls, c.closeFailed = true := by
  induction closes with
  | nil => intro calls h; simp [closeLoop] at h
  | cons c rest ih =>
    intro calls h
    simp only [closeLoop] at h
    split_ifs at h with h0 h1
    · simp only [Option.some.injEq, Prod.mk.injEq] at h
      rcases h with ⟨_, rfl⟩
      exact ⟨_, List.mem_singleton_self _, by simp [SysCall.closeFailed, h0, h1]⟩
    · simp only [Option.map_eq_some', Prod.mk.injEq] at h
      rcases h with ⟨⟨b, cs⟩, hr, hb, rfl⟩
      simp only at hb
      subst hb
      rcases ih _ hr with ⟨c', hc, hf⟩
      exact ⟨c', List.mem_cons_of_mem _ hc, hf⟩
    · simp at h

/-- The three ways `randomsample` returns a failure code. -/
theorem randomsample_failure (dev : Device) (mem : List Nat) (buflen : Nat) (res : SaltResult)
    (h : randomsample dev mem buflen = some res) (hrc : res.rc ≠ 0) :
    dev.fd = -1 ∨ (∃ c ∈ res.calls, c.readFailed = true)
      ∨ (∃ c ∈ res.calls, c.closeFailed = true) := by
  unfold randomsample at h
  by_cases hfd : dev.fd = -1
  · exact Or.inl hfd
  · right
    rw [if_neg hfd] at h
    cases hfill : fillLoop dev.reads mem 0 buflen with
    | none => rw [hfill] at h; simp at h
    | some r =>
      obtain ⟨ok, mem1, reads⟩ := r
      rw [hfill] at h
      cases ok with
      | false =>
        simp only [Option.some.injEq] at h
        subst h
        rcases fillLoop_false _ _ _ _ _ _ hfill with ⟨c, hc, hf⟩
        exact Or.inl ⟨c, by simp [hc], hf⟩
      | true =>
        simp only at h
        cases hclose : closeLoop dev.closes with
        | none => rw [hclose] at h; simp at h
        | some q =>
          obtain ⟨okc, closes⟩ := q
          rw [hclose] at h
          cases okc with
          | false =>
            simp only [Option.some.injEq] at h
            subst h
            rcases closeLoop_false _ _ hclose with ⟨c, hc, hf⟩
            exact Or.inr ⟨c, by simp [hc], hf⟩
          | true =>
            simp only [Option.some.injEq] at h
            subst h
            exact absurd rfl hrc

/-- Claim C8 fails as stated: the primary generator fails, `open` succeeds, the
only `read` fills the buffer, `close` fails with `errno = 5`: `getsalt` returns
`4` although neither `open` nor any `read` failed. -/
theorem getsalt_fails_on_close_error :
    getsalt ⟨0, []⟩ ⟨3, [ReadOutcome.data [9]], [⟨-1, 5⟩]⟩ [0] 1
      = some ⟨4, [9], [SysCall.openDevice 3, SysCall.read 0 1 (ReadOutcome.data [9]),
          SysCall.close ⟨-1, 5⟩]⟩
    ∧ (4 : Int) ≠ 0
    ∧ (3 : Int) ≠ -1
    ∧ ∀ c ∈ [SysCall.openDevice 3, SysCall.read 0 1 (ReadOutcome.data [9]),
          SysCall.close ⟨-1, 5⟩], c.readFailed = false := by
  decide

/-- Claim C8 as amended: whenever `getsalt` returns a non-zero code, the primary
generator failed and either `open` failed, or some `read` returned an error or
end of file, or some `close` failed with an `errno` other than `EINTR`; and
when the primary generator succeeds `getsalt` returns `0` without any system
call on the device. -/
theorem getsalt_failure_causes (rand : RandOutcome) (dev : Device) (salt : List Nat)
    (saltlen : Nat) :
    (∀ res, getsalt rand dev salt saltlen = some res → res.rc ≠ 0 →
        rand.ret ≠ 1
        ∧ (dev.fd = -1 ∨ (∃ c ∈ res.calls, c.readFailed = true)
            ∨ (∃ c ∈ res.calls, c.closeFailed = true)))
    ∧ (rand.ret = 1 →
        getsalt rand dev salt saltlen = some ⟨0, writeAt salt 0 rand.bytes, []⟩) := by
  constructor
  · intro res h hrc
    unfold getsalt at h
    by_cases hr : rand.ret = 1
    · simp [hr] at h
      subst h
      exact absurd rfl hrc
    · rw [if_pos hr] at h
      exact ⟨hr, randomsample_failure dev _ saltlen res h hrc⟩
  · intro hr
    simp [getsalt, hr]

/-- Claim C8 as amended, at a run whose `close` fails with `errno = 5`. -/
theorem getsalt_failure_causes_witness :
    getsalt ⟨0, []⟩ ⟨3, [ReadOutcome.data [9]], [⟨-1, 5⟩]⟩ [0] 1
      = some ⟨4, [9], [SysCall.openDevice 3, SysCall.read 0 1 (ReadOutcome.data [9]),
          SysCall.close ⟨-1, 5⟩]⟩
    ∧ (0 : Int) ≠ 1
    ∧ ((3 : Int) = -1
        ∨ (∃ c ∈ [SysCall.openDevice 3, SysCall.read 0 1 (ReadOutcome.data [9]),
            SysCall.close ⟨-1, 5⟩], c.readFailed = true)
        ∨ (∃ c ∈ [SysCall.openDevice 3, SysCall.read 0 1 (ReadOutcome.data [9]),
            SysCall.close ⟨-1, 5⟩], c.closeFailed = true)) :=
  ⟨by decide,
   (getsalt_failure_causes ⟨0, []⟩ ⟨3, [ReadOutcome.data [9]], [⟨-1, 5⟩]⟩ [0] 1).1
      ⟨4, [9], [SysCall.openDevice 3, SysCall.read 0 1 (ReadOutcome.data [9]),
          SysCall.close ⟨-1, 5⟩]⟩ (by decide) (by decide)⟩

/-! ### The buffer after a successful `randomsample` -/

/-- No wrap-around in `buflen -= lenread` when `lenread ≤ buflen`. -/
theorem sizeSub_of_le (buflen n : Nat) (hb : buflen < SIZE_RANGE) (hn : n ≤ buflen) :
    sizeSub buflen n = buflen - n := by
  unfold sizeSub
  have h1 : n % SIZE_RANGE = n := Nat.mod_eq_of_lt (by omega)
  rw [h1]
  have h2 : buflen + SIZE_RANGE - n = (buflen - n) + SIZE_RANGE := by omega
  rw [h2, Nat.add_mod_right]
  exact Nat.mod_eq_of_lt (by omega)

/-- A `read` that returned neither `-1` nor `0` transferred at least one byte,
and returned their number. -/
theorem lenread_pos_bytes (out : ReadOutcome) (h1 : ¬ out.lenread = -1) (h2 : ¬ out.lenread = 0) :
    0 < out.bytes.length ∧ out.lenread = (out.bytes.length : Int) := by
  cases out with
  | error => simp [ReadOutcome.lenread] at h1
  | data bytes =>
    simp only [ReadOutcome.lenread, ReadOutcome.bytes] at h2 ⊢
    refine ⟨?_, trivial⟩
    rcases Nat.eq_zero_or_pos bytes.length with h | h
    · rw [h] at h2; exact absurd rfl h2
    · exact h

/-- After a store at `off`, the buffer up to the end of the stored bytes. -/
theorem writeAt_take (mem : List Nat) (off : Nat) (bs : List Nat) (h : off ≤ mem.length) :
    (writeAt mem off bs).take (off + bs.length) = mem.take off ++ bs := by
  unfold writeAt
  apply List.take_left'
  simp [List.length_take, Nat.min_eq_left h]

/-- A store at `off` leaves the buffer beyond the stored bytes as it was. -/
theorem writeAt_drop (mem : List Nat) (off : Nat) (bs : List Nat) (k : Nat)
    (h : off ≤ mem.length) :
    (writeAt mem off bs).drop (off + bs.length + k) = mem.drop (off + bs.length + k) := by
  unfold writeAt
  have hl : (mem.take off ++ bs).length = off + bs.length := by
    simp [List.length_take, Nat.min_eq_left h]
  rw [← hl, List.drop_append, List.drop_drop, hl]

/-- A store inside the buffer keeps its length. -/
theorem writeAt_length (mem : List Nat) (off : Nat) (bs : List Nat)
    (h : off + bs.length ≤ mem.length) :
    (writeAt mem off bs).length = mem.length := by
  unfold writeAt
  simp only [List.length_append, List.length_take, List.length_drop]
  omega

/-- Invariant of the read loop: when it ends normally and no `read` returned
more than asked for, the reads continue one another and the buffer holds the
bytes read from `off` on, its content elsewhere being unchanged. -/
theorem fillLoop_true (reads : List ReadOutcome) :
    ∀ (mem : List Nat) (off buflen : Nat) (mem1 : List Nat) (calls : List SysCall),
      buflen < SIZE_RANGE → off + buflen ≤ mem.length →
      fillLoop reads mem off buflen = some (true, mem1, calls) →
      (∀ c ∈ calls, c.overlong = false) →
      Chained off buflen calls
        ∧ mem1 = mem.take off ++ readData calls ++ mem.drop (off + buflen) := by
  induction reads with
  | nil =>
    intro mem off buflen mem1 calls hb hm h _
    simp only [fillLoop] at h
    split_ifs at h with h0
    simp only [Option.some.injEq, Prod.mk.injEq, true_and] at h
    rcases h with ⟨rfl, rfl⟩
    subst h0
    simp [Chained, readData]
  | cons out rest ih =>
    intro mem off buflen mem1 calls hb hm h hlen
    simp only [fillLoop] at h
    split_ifs at h with h0 h1 h2
    · simp only [Option.some.injEq, Prod.mk.injEq, true_and] at h
      rcases h with ⟨rfl, rfl⟩
      subst h0
      simp [Chained, readData]
    · simp at h
    · simp at h
    · simp only [Option.map_eq_some', Prod.mk.injEq] at h
      rcases h with ⟨⟨b, m, cs⟩, hr, hb', hm', rfl⟩
      simp only at hb' hm'
      subst hb' hm'
      obtain ⟨hpos, hlr⟩ := lenread_pos_bytes out h1 h2
      have hle : out.bytes.length ≤ buflen := by
        have := hlen (SysCall.read off buflen out) (List.mem_cons_self _ _)
        simp only [SysCall.overlong, decide_eq_false_iff_not, not_lt, hlr] at this
        exact_mod_cast this
      rw [sizeSub_of_le buflen _ hb hle] at hr
      have hwl : (writeAt mem off out.bytes).length = mem.length :=
        writeAt_length mem off out.bytes (by omega)
      obtain ⟨hch, hmem⟩ := ih (writeAt mem off out.bytes) (off + out.bytes.length)
        (buflen - out.bytes.length) m cs (by omega) (by rw [hwl]; omega) hr
        (fun c hc => hlen c (List.mem_cons_of_mem _ hc))
      refine ⟨⟨rfl, rfl, hpos, hle, hch⟩, ?_⟩
      rw [hmem, writeAt_take mem off out.bytes (by omega),
        writeAt_drop mem off out.bytes _ (by omega)]
      have e : off + out.bytes.length + (buflen - out.bytes.length) = off + buflen := by omega
      rw [e]
      simp [readData]

/-- Reads that continue one another transfer exactly the missing bytes. -/
theorem Chained_length :
    ∀ (calls : List SysCall) (off buflen : Nat),
      Chained off buflen calls → (readData calls).length = buflen := by
  intro calls
  induction calls with
  | nil => intro off buflen h; simp [Chained] at h; simp [readData, h]
  | cons c rest ih =>
    intro off buflen h
    cases c with
    | read o cnt out =>
      simp only [Chained] at h
      obtain ⟨_, _, _, hle, hch⟩ := h
      have := ih _ _ hch
      simp only [readData, List.length_append, this]
      omega
    | openDevice fd => simp [Chained] at h
    | close out => simp [Chained] at h
    | closeUnchecked => simp [Chained] at h

/-- In reads that continue one another, each read starts where the earlier
ones ended and asks for what they left missing. -/
theorem Chained_split :
    ∀ (pre : List SysCall) (off buflen : Nat) (o c : Nat) (out : ReadOutcome)
      (post : List SysCall),
      Chained off buflen (pre ++ SysCall.read o c out :: post) →
      o = off + (readData pre).length ∧ c = buflen - (readData pre).length
        ∧ 0 < out.bytes.length ∧ out.bytes.length ≤ c := by
  intro pre
  induction pre with
  | nil =>
    intro off buflen o c out post h
    simp only [List.nil_append, Chained] at h
    obtain ⟨h1, h2, h3, h4, _⟩ := h
    subst h1 h2
    simp [readData, h3, h4]
  | cons x pre ih =>
    intro off buflen o c out post h
    cases x with
    | read o1 c1 out1 =>
      simp only [List.cons_append, Chained] at h
      obtain ⟨_, _, _, hle, hch⟩ := h
      obtain ⟨e1, e2, e3, e4⟩ := ih _ _ _ _ _ _ hch
      refine ⟨?_, ?_, e3, e4⟩
      · simp only [readData, List.length_append]; omega
      · simp only [readData, List.length_append]; omega
    | openDevice fd => simp [Chained] at h
    | close out => simp [Chained] at h
    | closeUnchecked => simp [Chained] at h

/-- Reads that continue one another are all `read` calls. -/
theorem Chained_reads :
    ∀ (calls : List SysCall) (off buflen : Nat),
      Chained off buflen calls → calls.filter SysCall.isRead = calls := by
  intro calls
  induction calls with
  | nil => intro off buflen _; rfl
  | cons c rest ih =>
    intro off buflen h
    cases c with
    | read o cnt out =>
      simp only [Chained] at h
      simp [SysCall.isRead, ih _ _ h.2.2.2.2]
    | openDevice fd => simp [Chained] at h
    | close out => simp [Chained] at h
    | closeUnchecked => simp [Chained] at h

/-- The close loop makes no `read` call. -/
theorem closeLoop_calls (closes : List CloseOutcome) :
    ∀ (ok : Bool) (calls : List SysCall), closeLoop closes = some (ok, calls) →
      calls.filter SysCall.isRead = [] ∧ readData calls = [] := by
  induction closes with
  | nil => intro ok calls h; simp [closeLoop] at h
  | cons c rest ih =>
    intro ok calls h
    simp only [closeLoop] at h
    split_ifs at h with h0 h1
    · simp only [Option.some.injEq, Prod.mk.injEq] at h
      rcases h with ⟨_, rfl⟩
      simp [SysCall.isRead, readData]
    · simp only [Option.map_eq_some', Prod.mk.injEq] at h
      rcases h with ⟨⟨b, cs⟩, hr, _, rfl⟩
      obtain ⟨e1, e2⟩ := ih _ _ hr
      simp [SysCall.isRead, readData, e1, e2]
    · simp only [Option.some.injEq, Prod.mk.injEq] at h
      rcases h with ⟨_, rfl⟩
      simp [SysCall.isRead, readData]

/-- The bytes read by two logs in sequence. -/
theorem readData_append (a b : List SysCall) : readData (a ++ b) = readData a ++ readData b := by
  induction a with
  | nil => rfl
  | cons c rest ih => cases c <;> simp [readData, ih]

/-- Claim C9: let `randomsample` return `0` for a length `saltlen` on a buffer
of at least that size, no `read` having returned more than it was asked for.
Then each `read` was asked for exactly the bytes still missing and stored what
it got right after the bytes already stored, the reads transferred `saltlen`
bytes in all, and the buffer holds these bytes in its first `saltlen`
positions and its old content beyond them. -/
theorem randomsample_success_fills_buffer (dev : Device) (mem : List Nat) (saltlen : Nat)
    (res : SaltResult)
    (hlen : saltlen < SIZE_RANGE) (hmem : saltlen ≤ mem.length)
    (h : randomsample dev mem saltlen = some res) (hrc : res.rc = 0)
    (hread : ∀ c ∈ res.calls, c.overlong = false) :
    (∀ pre o c out post,
        res.calls.filter SysCall.isRead = pre ++ SysCall.read o c out :: post →
        o = (readData pre).length ∧ c = saltlen - (readData pre).length
          ∧ 0 < out.bytes.length ∧ out.bytes.length ≤ c)
    ∧ (readData res.calls).length = saltlen
    ∧ res.mem = readData res.calls ++ mem.drop saltlen := by
  unfold randomsample at h
  by_cases hfd : dev.fd = -1
  · rw [if_pos hfd] at h
    simp only [Option.some.injEq] at h
    subst h
    exact absurd hrc (by simp)
  rw [if_neg hfd] at h
  cases hfill : fillLoop dev.reads mem 0 saltlen with
  | none => rw [hfill] at h; simp at h
  | some r =>
    obtain ⟨ok, mem1, reads⟩ := r
    rw [hfill] at h
    cases ok with
    | false =>
      simp only [Option.some.injEq] at h
      subst h
      exact absurd hrc (by simp)
    | true =>
      simp only at h
      cases hclose : closeLoop dev.closes with
      | none => rw [hclose] at h; simp at h
      | some q =>
        obtain ⟨okc, closes⟩ := q
        rw [hclose] at h
        cases okc with
        | false =>
          simp only [Option.some.injEq] at h
          subst h
          exact absurd hrc (by simp)
        | true =>
          simp only [Option.some.injEq] at h
          subst h
          obtain ⟨hch, hm⟩ := fillLoop_true dev.reads mem 0 saltlen mem1 reads hlen
            (by omega) hfill
            (fun c hc => hread c (by simp [hc]))
          obtain ⟨hc1, hc2⟩ := closeLoop_calls dev.closes true closes hclose
          have hfilter : (SysCall.openDevice dev.fd :: reads ++ closes).filter SysCall.isRead
              = reads := by
            simp [List.filter_cons, SysCall.isRead, hc1, Chained_reads reads 0 saltlen hch]
          have hdata :
              readData (SysCall.openDevice dev.fd :: reads ++ closes) = readData reads := by
            have : SysCall.openDevice dev.fd :: reads ++ closes
                = [SysCall.openDevice dev.fd] ++ (reads ++ closes) := rfl
            rw [this, readData_append, readData_append, hc2]
            simp [readData]
          refine ⟨?_, ?_, ?_⟩
          · intro pre o c out post hsplit
            simp only at hsplit
            rw [hfilter] at hsplit
            rw [hsplit] at hch
            have := Chained_split pre 0 saltlen o c out post hch
            simpa using this
          · simp only
            rw [hdata]
            exact Chained_length reads 0 saltlen hch
          · simp only
            rw [hdata, hm]
            simp

/-- Claim C9 at a run that reads 2, 1 and 3 bytes into a buffer of 7 with
`saltlen = 6`, the first `close` being interrupted. -/
theorem randomsample_success_fills_buffer_witness :
    randomsample ⟨3, [ReadOutcome.data [9, 8], ReadOutcome.data [7], ReadOutcome.data [1, 2, 3]],
        [⟨-1, 4⟩, ⟨0, 0⟩]⟩ [0, 0, 0, 0, 0, 0, 0] 6
      = some ⟨0, [9, 8, 7, 1, 2, 3, 0],
          [SysCall.openDevice 3, SysCall.read 0 6 (ReadOutcome.data [9, 8]),
           SysCall.read 2 4 (ReadOutcome.data [7]), SysCall.read 3 3 (ReadOutcome.data [1, 2, 3]),
           SysCall.close ⟨-1, 4⟩, SysCall.close ⟨0, 0⟩]⟩
    ∧ (readData [SysCall.openDevice 3, SysCall.read 0 6 (ReadOutcome.data [9, 8]),
           SysCall.read 2 4 (ReadOutcome.data [7]), SysCall.read 3 3 (ReadOutcome.data [1, 2, 3]),
           SysCall.close ⟨-1, 4⟩, SysCall.close ⟨0, 0⟩]).length = 6 :=
  ⟨by decide,
   (randomsample_success_fills_buffer
        ⟨3, [ReadOutcome.data [9, 8], ReadOutcome.data [7], ReadOutcome.data [1, 2, 3]],
        [⟨-1, 4⟩, ⟨0, 0⟩]⟩ [0, 0, 0, 0, 0, 0, 0] 6
        ⟨0, [9, 8, 7, 1, 2, 3, 0],
          [SysCall.openDevice 3, SysCall.read 0 6 (ReadOutcome.data [9, 8]),
           SysCall.read 2 4 (ReadOutcome.data [7]), SysCall.read 3 3 (ReadOutcome.data [1, 2, 3]),
           SysCall.close ⟨-1, 4⟩, SysCall.close ⟨0, 0⟩]⟩
        (by decide) (by decide) (by decide) (by decide) (by decide)).2.1⟩

/-! ### Termination of `randomsample` -/

/-- The read loop returns when the device has as many `read` outcomes as bytes
are missing and none transfers more than is missing. -/
theorem fillLoop_returns (reads : List ReadOutcome) :
    ∀ (mem : List Nat) (off buflen : Nat),
      buflen < SIZE_RANGE → buflen ≤ reads.length → Conforms reads buflen →
      (fillLoop reads mem off buflen).isSome = true := by
  induction reads with
  | nil =>
    intro mem off buflen _ hl _
    have : buflen = 0 := by simpa using hl
    simp [fillLoop, this]
  | cons out rest ih =>
    intro mem off buflen hb hl hc
    simp only [fillLoop]
    split_ifs with h0 h1 h2
    · rfl
    · rfl
    · rfl
    · obtain ⟨hpos, _⟩ := lenread_pos_bytes out h1 h2
      obtain ⟨hle, hrest⟩ := hc
      rw [sizeSub_of_le buflen _ hb hle]
      simp only [Option.isSome_map']
      apply ih
      · omega
      · simp only [List.length_cons] at hl
        omega
      · exact hrest

/-- The close loop returns when some `close` is not interrupted. -/
theorem closeLoop_returns (closes : List CloseOutcome)
    (h : ∃ c ∈ closes, c.final = true) : (closeLoop closes).isSome = true := by
  induction closes with
  | nil => simp at h
  | cons c rest ih =>
    simp only [closeLoop]
    split_ifs with h0 h1
    · rfl
    · simp only [Option.isSome_map']
      apply ih
      rcases h with ⟨c', hc', hf⟩
      rcases List.mem_cons.mp hc' with rfl | hmem
      · have h1' : c'.errno = EINTR := by simpa using h1
        simp [CloseOutcome.final, h0, h1'] at hf
      · exact ⟨c', hmem, hf⟩
    · rfl

/-- The function `randomsample` returns when the device has as many `read`
outcomes as bytes are asked for, none transferring more than is missing, and
some `close` is not interrupted. -/
theorem randomsample_returns (dev : Device) (mem : List Nat) (buflen : Nat)
    (hb : buflen < SIZE_RANGE) (hl : buflen ≤ dev.reads.length) (hc : Conforms dev.reads buflen)
    (hclose : ∃ c ∈ dev.closes, c.final = true) :
    (randomsample dev mem buflen).isSome = true := by
  unfold randomsample
  split_ifs with hfd
  · rfl
  · have h1 := fillLoop_returns dev.reads mem 0 buflen hb hl hc
    have h2 := closeLoop_returns dev.closes hclose
    cases hfill : fillLoop dev.reads mem 0 buflen with
    | none => rw [hfill] at h1; simp at h1
    | some r =>
      obtain ⟨ok, mem1, reads⟩ := r
      cases ok with
      | false => rfl
      | true =>
        cases hcl : closeLoop dev.closes with
        | none => rw [hcl] at h2; simp at h2
        | some q =>
          obtain ⟨okc, closes⟩ := q
          cases okc <;> rfl

end NodeScrypt
